import Mathlib

/-!
Verification development for the lispBM runtime core.

Shallow embedding of:
  * the REPL's constant-heap write routine (`experiment_repl/repl.c`),
  * the defragmenting byte pool (`src/lbm_defrag_mem.c`),
  * the CPS evaluator (`src/eval_cps.c`).

Machine words (`lbm_uint` / `VALUE`) are modelled as `Nat`; the build is the
32-bit one (the REPL compares constant-heap slots against `0xffffffff` and
prints them with `%x`).  Pointers into the cons heap are modelled as cell
indices; addresses into the defrag pool are modelled as word offsets into the
pool's data area.

The headers and support files `heap.c`, `symrepr.c`, `env.c`, `stack.c` and
`fundamental.c` are not part of the source tree given under `src/`; the
definitions that stand in for them are spec-modelled and say so in their doc
comments.
-/

namespace LispBM

/-! ## Value encoding

Modelled from the spec (§3, value layout): the low four bits of a word
classify it; tag `0000` is a cons-cell pointer whose payload is the word index
into the heap, tags `1xxx` are immediates whose low three bits select among
small int, small uint, char and symbol.  The payload occupies the bits above
the tag. -/

abbrev VALUE := Nat

def PTR_TYPE_CONS : Nat := 0
def PTR_TYPE_BOXED_I : Nat := 1
def PTR_TYPE_BOXED_U : Nat := 2
def PTR_TYPE_BOXED_F : Nat := 3
def PTR_TYPE_ARRAY : Nat := 4
def PTR_TYPE_STREAM : Nat := 5
def PTR_TYPE_REF : Nat := 6
/-- The bytecode experiment is a dead path the spec deliberately omits; its
pointer tag is modelled as the remaining pointer tag value. -/
def PTR_TYPE_BYTECODE : Nat := 7
/-- Defrag-memory handle tag (spec §3: `0111` defrag-array handle). -/
def LBM_TYPE_DEFRAG_MEM : Nat := 7

def VAL_TYPE_I : Nat := 8
def VAL_TYPE_U : Nat := 9
def VAL_TYPE_CHAR : Nat := 10
def VAL_TYPE_SYMBOL : Nat := 11

def typeOf (v : VALUE) : Nat := v % 16
def decPtr (v : VALUE) : Nat := v / 16
def encConsPtr (i : Nat) : VALUE := 16 * i
def setPtrType (v : VALUE) (t : Nat) : VALUE := 16 * decPtr v + t

def encU (n : Nat) : VALUE := 16 * n + VAL_TYPE_U
def decU (v : VALUE) : Nat := v / 16
def encSym (s : Nat) : VALUE := 16 * s + VAL_TYPE_SYMBOL
def decSym (v : VALUE) : Nat := v / 16

/-! Symbol ids.  Modelled from the spec (§3, §7): the registry is an external
collaborator interning names to small integer ids; the built-in special forms
and the error kinds occupy a reserved range.  Concrete id values are a
modelling choice; all that the code relies on is their distinctness. -/

def sym_nil : Nat := 1
def sym_true : Nat := 2
def sym_quote : Nat := 3
def sym_define : Nat := 4
def sym_progn : Nat := 5
def sym_lambda : Nat := 6
def sym_if : Nat := 7
def sym_let : Nat := 8
def sym_closure : Nat := 9
def sym_eerror : Nat := 10
def sym_merror : Nat := 11
def sym_terror : Nat := 12
def sym_defrag_mem_type : Nat := 13
def sym_defrag_array_type : Nat := 14
/-- Modelled from the spec (§7): `ERR_GC_PROGRESS` is listed as an error
symbol kind distinct from `ERR_OUT_OF_MEMORY`.  The code under `src/` never
produces it; the id is chosen distinct from every id above. -/
def sym_gc_progress : Nat := 20
/-- Modelled from the spec (§7): `ERR_ARITY` is listed as an error symbol
kind distinct from `ERR_EVAL`.  The code under `src/` never produces it; the
id is chosen distinct from every id above. -/
def sym_arity : Nat := 21

def NILV : VALUE := encSym sym_nil
def eerrV : VALUE := encSym sym_eerror
def merrV : VALUE := encSym sym_merror

/-- `symrepr_is_error` as used on whole values in `eval_cps.c` (spec §3:
errors are ordinary symbol values from a well-known sub-range, tested by
comparing the id). -/
def symrepr_is_error (v : VALUE) : Bool :=
  typeOf v == VAL_TYPE_SYMBOL &&
    (decSym v == sym_eerror || decSym v == sym_merror || decSym v == sym_terror)

/-! ## Cons heap

Modelled from the spec (§4.1, `heap.c` is not under `src/`): a fixed array of
two-word cells and a free list; `allocate` pops the free-list head, writes the
two words and returns the tagged pointer, signalling `ERR_OUT_OF_MEMORY` when
the free list is empty.  `car`/`cdr` of anything that is not an in-range
cons-cell pointer yield the type-error symbol. -/

structure Heap where
  cells : List (VALUE × VALUE)
  free : List Nat
  deriving DecidableEq, Repr

def carH (h : Heap) (v : VALUE) : VALUE :=
  if typeOf v == PTR_TYPE_CONS && decide (decPtr v < h.cells.length) then
    (h.cells.getD (decPtr v) (0, 0)).fst
  else encSym sym_terror

def cdrH (h : Heap) (v : VALUE) : VALUE :=
  if typeOf v == PTR_TYPE_CONS && decide (decPtr v < h.cells.length) then
    (h.cells.getD (decPtr v) (0, 0)).snd
  else encSym sym_terror

/-- `lbm_heap_allocate_cell`: pop the free-list head, write the two words,
return the pointer tagged with the requested pointer type. -/
def lbm_heap_allocate_cell (h : Heap) (ptype : Nat) (a b : VALUE) : VALUE × Heap :=
  match h.free with
  | [] => (merrV, h)
  | i :: rest => (16 * i + ptype, { cells := h.cells.set i (a, b), free := rest })

def consH (h : Heap) (a b : VALUE) : VALUE × Heap :=
  lbm_heap_allocate_cell h PTR_TYPE_CONS a b

def setCarH (h : Heap) (v : VALUE) (x : VALUE) : Heap :=
  if typeOf v == PTR_TYPE_CONS && decide (decPtr v < h.cells.length) then
    { h with cells := h.cells.set (decPtr v) (x, (h.cells.getD (decPtr v) (0, 0)).snd) }
  else h

def setCdrH (h : Heap) (v : VALUE) (x : VALUE) : Heap :=
  if typeOf v == PTR_TYPE_CONS && decide (decPtr v < h.cells.length) then
    { h with cells := h.cells.set (decPtr v) ((h.cells.getD (decPtr v) (0, 0)).fst, x) }
  else h

def setCarAndCdrH (h : Heap) (v : VALUE) (a b : VALUE) : Heap :=
  if typeOf v == PTR_TYPE_CONS && decide (decPtr v < h.cells.length) then
    { h with cells := h.cells.set (decPtr v) (a, b) }
  else h

/-! ## Constant heap (claim C1)

Direct translation of `const_heap_write` from `experiment_repl/repl.c`.  The
constant memory is modelled as a word-indexed function; the debugging
`printf` calls on the failure path have no effect on the result. -/

def CONSTANT_MEMORY_SIZE : Nat := 32 * 1024

def const_heap_write (mem : Nat → Nat) (ix w : Nat) : Bool × (Nat → Nat) :=
  if CONSTANT_MEMORY_SIZE ≤ ix then (false, mem)
  else if mem ix = 0xffffffff then (true, fun j => if j = ix then w else mem j)
  else if mem ix = w then (true, mem)
  else (false, mem)

/-! ## Defragmenting byte pool (claim C2)

Translation of `src/lbm_defrag_mem.c`.  The pool's data area is a list of
machine words; pool-internal addresses (`(lbm_uint)&mem_data[i]` and the
record data pointers `&allocation[3]`) are modelled as word offsets into the
data area.  `sizeof(lbm_uint)` is 4 (32-bit build). -/

def bs2ws (bs : Nat) : Nat :=
  if bs % 4 == 0 then bs / 4 else bs / 4 + 1

/-- The defrag-memory region: header `{size-in-words, flags}` followed by the
data area (`DEFRAG_MEM_SIZE`, `DEFRAG_MEM_FLAGS`, `DEFRAG_MEM_DATA`). -/
structure DefragMem where
  size : Nat
  flags : Nat
  data : List Nat
  deriving DecidableEq, Repr

def wread (d : List Nat) (i : Nat) : Nat := d.getD i 0

/-- `memset(&d[start], 0, len * sizeof(lbm_uint))`. -/
def memsetZ (d : List Nat) (start len : Nat) : List Nat :=
  (List.range len).foldl (fun acc j => acc.set (start + j) 0) d

/-- `memmove(&d[tgt], &d[src], len * sizeof(lbm_uint))`: the source segment is
read out before any word of the target is written, which is exactly the
overlap guarantee `memmove` gives. -/
def memmoveW (d : List Nat) (tgt src len : Nat) : List Nat :=
  let seg := (List.range len).map (fun j => wread d (src + j))
  (List.range len).foldl (fun acc j => acc.set (tgt + j) (seg.getD j 0)) d

/-- Loop body of `lbm_defrag_mem_defrag`.  The loop index `i` strictly
increases every iteration, so fuel `memSize + 1` runs the loop to completion. -/
def defragLoop : Nat → List Nat → Heap → Nat → Nat → Nat → List Nat × Heap
  | 0, d, h, _, _, _ => (d, h)
  | f + 1, d, h, memSize, i, holeStart =>
    if i < memSize then
      if wread d i ≠ 0 then
        let allocBytes := wread d i
        let allocWords := bs2ws allocBytes
        if holeStart == i then
          defragLoop f d h memSize (i + allocWords + 3) (i + allocWords + 3)
        else
          let moveDist := i - holeStart
          let clearIx := i - moveDist
          let d1 := memmoveW d holeStart i (allocWords + 3)
          let d2 := memsetZ d1 clearIx moveDist
          let cell := wread d2 (holeStart + 2)
          let h1 := setCarH h cell holeStart
          defragLoop f d2 h1 memSize (i + allocWords + 3) (holeStart + allocWords + 3)
      else
        defragLoop f d h memSize (i + 1) holeStart
    else (d, h)

def lbm_defrag_mem_defrag (dm : DefragMem) (h : Heap) : DefragMem × Heap :=
  let (d, h1) := defragLoop (dm.size + 1) dm.data h dm.size 0 0
  ({ dm with data := d }, h1)

/-- Scan states of the allocation loop in `lbm_defrag_mem_alloc`. -/
def SCAN_INIT : Nat := 0
def SCAN_FREE_LEN : Nat := 1

/-- First-fit scan of `lbm_defrag_mem_alloc`: returns `(alloc_found,
free_start)`.  Every iteration either advances `i` or breaks with
`alloc_found`, so fuel `memSize + 2` suffices. -/
def allocScanLoop : Nat → List Nat → Nat → Nat → Nat → Nat → Nat → Nat → Bool × Nat
  | 0, _, _, _, _, _, _, freeStart => (false, freeStart)
  | f + 1, d, memSize, allocWords, i, state, freeWords, freeStart =>
    if i < memSize then
      if state == SCAN_INIT then
        if wread d i == 0 then
          allocScanLoop f d memSize allocWords (i + 1) SCAN_FREE_LEN 1 i
        else
          allocScanLoop f d memSize allocWords (i + bs2ws (wread d i) + 3) SCAN_INIT freeWords freeStart
      else
        if wread d i == 0 then
          if freeWords + 1 ≥ allocWords then (true, freeStart)
          else allocScanLoop f d memSize allocWords (i + 1) SCAN_FREE_LEN (freeWords + 1) freeStart
        else
          allocScanLoop f d memSize allocWords (i + 1) SCAN_INIT (freeWords + 1) freeStart
    else (false, freeStart)

/-- `lbm_defrag_mem_alloc`: allocate the handle cell, defrag if the flag is
set, scan first-fit, then populate the record `[size, data-ptr, cell-back-ptr,
payload...]` and point the handle cell's car at the record. -/
def lbm_defrag_mem_alloc (dm : DefragMem) (h : Heap) (bytes : Nat) :
    VALUE × DefragMem × Heap :=
  let (cell, h1) := lbm_heap_allocate_cell h PTR_TYPE_CONS NILV (encSym sym_defrag_array_type)
  if typeOf cell == VAL_TYPE_SYMBOL then (cell, dm, h1)
  else
    let memSize := dm.size
    let (dm1, h2) :=
      if dm.flags ≠ 0 then
        let (dm2, h3) := lbm_defrag_mem_defrag dm h1
        ({ dm2 with flags := 0 }, h3)
      else (dm, h1)
    let numWords := bs2ws bytes
    let allocWords := numWords + 3
    let (found, freeStart) :=
      allocScanLoop (memSize + 2) dm1.data memSize allocWords 0 SCAN_INIT 0 0
    if found then
      let d1 := dm1.data.set freeStart bytes
      let d2 := d1.set (freeStart + 1) (freeStart + 3)
      let d3 := d2.set (freeStart + 2) (decPtr cell)
      let h3 := setCarH h2 cell freeStart
      (setPtrType cell PTR_TYPE_ARRAY, { dm1 with data := d3 }, h3)
    else
      let h3 := setCarAndCdrH h2 cell NILV NILV
      (merrV, { dm1 with flags := 1 }, h3)

/-- `free_defrag_allocation`: clear the handle cell through the re-encoded
back-pointer and wipe the record's words. -/
def free_defrag_allocation (dm : DefragMem) (h : Heap) (offset : Nat) :
    DefragMem × Heap :=
  let size := wread dm.data offset
  if size > 0 then
    let nwords := bs2ws size + 3
    let cellBackPtr := wread dm.data (offset + 2)
    let cell := encConsPtr cellBackPtr
    let h1 := setCarAndCdrH h cell NILV NILV
    ({ dm with data := memsetZ dm.data offset nwords }, h1)
  else (dm, h)

/-- `lbm_defrag_mem_free`: wipe a record given its start offset. -/
def lbm_defrag_mem_free (dm : DefragMem) (offset : Nat) : DefragMem :=
  let nbytes := wread dm.data offset
  let wordsToWipe := 3 + bs2ws nbytes
  { dm with data := memsetZ dm.data offset wordsToWipe }

/-- Offsets of the populated records, found with the same jump scan the
source uses (a non-zero word at a record boundary is a size field). -/
def recordStartsLoop : Nat → List Nat → Nat → Nat → List Nat
  | 0, _, _, _ => []
  | f + 1, d, memSize, i =>
    if i < memSize then
      if wread d i ≠ 0 then
        i :: recordStartsLoop f d memSize (i + bs2ws (wread d i) + 3)
      else recordStartsLoop f d memSize (i + 1)
    else []

def recordStarts (dm : DefragMem) : List Nat :=
  recordStartsLoop (dm.size + 1) dm.data dm.size 0

/-- Claim C2's invariant (spec I4/P2): every populated record's back-pointer
cell has car equal to the record's address, and every handle cell (a cell
whose cdr is the defrag-array type symbol) points at a populated record whose
back-pointer is that cell. -/
def defrag_backptr_inv (h : Heap) (dm : DefragMem) : Bool :=
  ((recordStarts dm).all fun o =>
    let ci := wread dm.data (o + 2)
    decide (ci < h.cells.length) && ((h.cells.getD ci (0, 0)).fst == o)) &&
  ((List.range h.cells.length).all fun i =>
    let c := h.cells.getD i (0, 0)
    if c.snd == encSym sym_defrag_array_type then
      (recordStarts dm).contains c.fst && (wread dm.data (c.fst + 2) == i)
    else true)

/-! ## CPS evaluator (claims C3 and C4)

Translation of `src/eval_cps.c`.  The continuation stack is modelled as a
list with its top at the head (`stack.c` is not under `src/`; spec §4.4 makes
it a growable stack of words, and `eval_cps.c` ignores push failures, so the
model lets pushes always succeed).  All list-walking loops carry explicit
fuel; the evaluator loop itself is driven by a separate step budget, and a
run that exhausts either returns `none`. -/

def DONE : Nat := 1
def SET_GLOBAL_ENV : Nat := 2
def FUNCTION_APP : Nat := 3
def FUNCTION : Nat := 4
def BIND_TO_KEY_REST : Nat := 5
def IF : Nat := 6
def ARG_LIST : Nat := 7
def EVAL : Nat := 8
def PROGN_REST : Nat := 9

/-- Pop the top word of a continuation stack.  An underflow (never reached by
the evaluator, whose stack bottom carries the `DONE` frame) reads word 0. -/
def pop : List VALUE → VALUE × List VALUE
  | [] => (0, [])
  | v :: vs => (v, vs)

/-- Evaluator machine state: the context registers of `eval_context_t`
together with the global environment and the local variables of `run_eval`
(`r`, `done`, `perform_gc`, `app_cont`). -/
structure Machine where
  heap : Heap
  genv : VALUE
  K : List VALUE
  curr_exp : VALUE
  curr_env : VALUE
  program : VALUE
  r : VALUE
  done : Bool
  perform_gc : Bool
  app_cont : Bool
  deriving DecidableEq, Repr

/-- Modelled from the spec (`env.c` not under `src/`): linear search of an
association-list environment (§3). -/
def env_lookup : Nat → Heap → VALUE → VALUE → Option VALUE
  | 0, _, _, _ => none
  | fuel + 1, h, sym, env =>
    if typeOf env == PTR_TYPE_CONS then
      if carH h (carH h env) == sym then some (cdrH h (carH h env))
      else env_lookup fuel h sym (cdrH h env)
    else none

/-- Modelled from the spec (`env.c` not under `src/`): shallow copy of an
association-list spine, sharing the `(symbol . value)` pairs; fails when a
cons allocation fails. -/
def env_copy_shallow : Nat → Heap → VALUE → Option VALUE × Heap
  | 0, h, _ => (none, h)
  | fuel + 1, h, env =>
    if typeOf env == PTR_TYPE_CONS then
      match env_copy_shallow fuel h (cdrH h env) with
      | (none, h1) => (none, h1)
      | (some rest, h1) =>
        let (c, h2) := consH h1 (carH h1 env) rest
        if typeOf c == VAL_TYPE_SYMBOL then (none, h2) else (some c, h2)
    else (some env, h)

/-- Modelled from the spec (`env.c` not under `src/`): bind parameters to
arguments pairwise in front of the closure environment; fails when a cons
allocation fails.  Only called after the caller has checked the lengths. -/
def env_build_params_args : Nat → Heap → VALUE → VALUE → VALUE → Option VALUE × Heap
  | 0, h, _, _, _ => (none, h)
  | fuel + 1, h, params, args, env =>
    if typeOf params == PTR_TYPE_CONS then
      let (binding, h1) := consH h (carH h params) (carH h args)
      let (env2, h2) := consH h1 binding env
      if typeOf binding == VAL_TYPE_SYMBOL || typeOf env2 == VAL_TYPE_SYMBOL then
        (none, h2)
      else env_build_params_args fuel h2 (cdrH h2 params) (cdrH h2 args) env2
    else (some env, h)

/-- Modelled from the spec (`env.c` not under `src/`): destructively update
the binding for `key` in a local environment. -/
def env_modify_binding : Nat → Heap → VALUE → VALUE → VALUE → Heap
  | 0, h, _, _, _ => h
  | fuel + 1, h, env, key, val =>
    if typeOf env == PTR_TYPE_CONS then
      if carH h (carH h env) == key then setCdrH h (carH h env) val
      else env_modify_binding fuel h (cdrH h env) key val
    else h

/-- Modelled from the spec (`fundamental.c` not under `src/`): the length of
a proper cons list, as used by the closure arity check. -/
def listLength : Nat → Heap → VALUE → Nat
  | 0, _, _ => 0
  | fuel + 1, h, v =>
    if typeOf v == PTR_TYPE_CONS then listLength fuel h (cdrH h v) + 1 else 0

/-- Modelled from the spec (`fundamental.c` not under `src/`): list reversal
by consing onto an accumulator; an allocation failure yields the
out-of-memory symbol, which is what the `FUNCTION_APP` continuation tests
for. -/
def reverseLoop : Nat → Heap → VALUE → VALUE → VALUE × Heap
  | 0, h, _, acc => (acc, h)
  | fuel + 1, h, v, acc =>
    if typeOf v == PTR_TYPE_CONS then
      let (c, h1) := consH h (carH h v) acc
      if typeOf c == VAL_TYPE_SYMBOL then (merrV, h1)
      else reverseLoop fuel h1 (cdrH h1 v) c
    else (acc, h)

def reverseH (fuel : Nat) (h : Heap) (v : VALUE) : VALUE × Heap :=
  reverseLoop fuel h v NILV

/-- Modelled from the spec (§1, §6): built-in operators are external
collaborators out of the specified core; the registry is modelled empty, so
`is_fundamental` never holds and `fundamental_exec` always fails. -/
def is_fundamental (_v : VALUE) : Bool := false

/-- See `is_fundamental`: with an empty registry every execution fails. -/
def fundamental_exec (K : List VALUE) (_fn : VALUE) : Bool × List VALUE := (false, K)

/-- Push the arguments of a fundamental application onto the stack
(`while (type_of(curr_arg) == PTR_TYPE_CONS) { push; curr_arg = cdr; }`),
returning the new stack and `nargs`. -/
def pushArgsLoop : Nat → Heap → VALUE → List VALUE → Nat → List VALUE × Nat
  | 0, _, _, K, n => (K, n)
  | fuel + 1, h, v, K, n =>
    if typeOf v == PTR_TYPE_CONS then
      pushArgsLoop fuel h (cdrH h v) (carH h v :: K) (n + 1)
    else (K, n)

/-- Modelled from the spec (§4.1, `heap.c` not under `src/`):
`heap_perform_gc_aux` — root indices of the mark phase. -/
def ptrIdx (h : Heap) (v : VALUE) : List Nat :=
  if typeOf v == PTR_TYPE_CONS && decide (decPtr v < h.cells.length) then [decPtr v] else []

def cellSuccs (h : Heap) (i : Nat) : List Nat :=
  let c := h.cells.getD i (0, 0)
  ptrIdx h c.fst ++ ptrIdx h c.snd

def markStep (h : Heap) (m : List Nat) : List Nat :=
  (m ++ m.foldl (fun acc i => acc ++ cellSuccs h i) []).dedup

def markFix : Nat → Heap → List Nat → List Nat
  | 0, _, m => m
  | fuel + 1, h, m => markFix fuel h (markStep h m)

/-- Modelled from the spec (§4.1, `heap.c` not under `src/`): stop-the-world
mark–sweep.  Marking closes the root indices under `car`/`cdr`; sweeping
prepends every unmarked cell to a rebuilt free list.  Freed cells keep their
words until reallocation overwrites them. -/
def gcRun (h : Heap) (roots : List VALUE) : Heap :=
  let m0 := (roots.foldl (fun acc v => acc ++ ptrIdx h v) []).dedup
  let m := markFix h.cells.length h m0
  let fr := (List.range h.cells.length).foldl
    (fun acc i => if i ∈ m then acc else i :: acc) []
  { h with free := fr }

/-- `cont_set_global_env`: find the key in the global environment and update
in place, otherwise cons a fresh `(key . val)` entry onto it, requesting a GC
and re-pushing the frame when an allocation fails. -/
def setGlobalFind : Nat → Heap → VALUE → VALUE → Option VALUE
  | 0, _, _, _ => none
  | fuel + 1, h, curr, key =>
    if typeOf curr == PTR_TYPE_CONS then
      if carH h (carH h curr) == key then some (carH h curr)
      else setGlobalFind fuel h (cdrH h curr) key
    else none

def cont_set_global_env (ifuel : Nat) (s : Machine) (val : VALUE) : VALUE × Machine :=
  let (key, K1) := pop s.K
  let s := { s with K := K1 }
  match setGlobalFind ifuel s.heap s.genv key with
  | some binding => (encSym sym_true, { s with heap := setCdrH s.heap binding val })
  | none =>
    let (keyval, h1) := consH s.heap key val
    if typeOf keyval == VAL_TYPE_SYMBOL then
      (val, { s with heap := h1, K := encU SET_GLOBAL_ENV :: key :: K1, perform_gc := true })
    else
      let (tmp, h2) := consH h1 keyval s.genv
      if typeOf tmp == VAL_TYPE_SYMBOL then
        (val, { s with heap := h2, K := encU SET_GLOBAL_ENV :: key :: K1, perform_gc := true })
      else (encSym sym_true, { s with heap := h2, genv := tmp })

/-- The `FUNCTION_APP` continuation after the argument list has been
reversed: dispatch on the kind of the function value.  `h` is the heap after
the reversal, `K2` the stack after the two pops. -/
def funAppAfterRev (ifuel : Nat) (s : Machine) (h : Heap) (K2 : List VALUE)
    (fn args argsRev : VALUE) : Option (VALUE × Machine) :=
  if typeOf fn == PTR_TYPE_CONS then
    let params := carH h (cdrH h fn)
    let expr := carH h (cdrH h (cdrH h fn))
    let cloEnv := carH h (cdrH h (cdrH h (cdrH h fn)))
    if listLength ifuel h params != listLength ifuel h args then
      some (eerrV, { s with heap := h, K := K2, done := true })
    else
      match env_build_params_args ifuel h params argsRev cloEnv with
      | (none, h2) =>
        some (fn, { s with heap := h2, K := encU FUNCTION_APP :: args :: K2,
                           perform_gc := true, app_cont := true })
      | (some localEnv, h2) =>
        some (0, { s with heap := h2, K := K2, curr_exp := expr, curr_env := localEnv })
  else if typeOf fn == PTR_TYPE_BYTECODE then
    -- Dead path: the source loops without advancing `curr_arg` and then calls
    -- the absent bytecode engine; the spec deliberately omits it (§9).
    none
  else if typeOf fn == VAL_TYPE_SYMBOL then
    let (K3, nargs) := pushArgsLoop ifuel h args K2 0
    let K4 := encU nargs :: K3
    let (ok, K5) := fundamental_exec K4 fn
    if !ok then some (merrV, { s with heap := h, K := K5, done := true })
    else
      let (res, K6) := pop K5
      if typeOf res == VAL_TYPE_SYMBOL && decSym res == sym_merror then
        some (fn, { s with heap := h, K := encU FUNCTION_APP :: args :: K6,
                           perform_gc := true, app_cont := true })
      else some (res, { s with heap := h, K := K6, app_cont := true })
  else some (eerrV, { s with heap := h, K := K2, done := true })

/-- `apply_continuation`: pop the continuation tag and dispatch.  Returns the
value assigned to `r` together with the updated machine; `none` marks the
dead bytecode path. -/
def apply_continuation (ifuel : Nat) (s0 : Machine) (arg : VALUE) :
    Option (VALUE × Machine) :=
  let s1 := { s0 with app_cont := false }
  let (k, K1) := pop s1.K
  let s := { s1 with K := K1 }
  if decU k == DONE then some (arg, { s with done := true })
  else if decU k == EVAL then some (encU 0, { s with curr_exp := arg })
  else if decU k == SET_GLOBAL_ENV then
    let (res, s2) := cont_set_global_env ifuel s arg
    some (res, { s2 with app_cont := true })
  else if decU k == PROGN_REST then
    let (rest, K2) := pop K1
    let s := { s with K := K2 }
    if typeOf rest == VAL_TYPE_SYMBOL && rest == NILV then
      some (arg, { s with app_cont := true })
    else if symrepr_is_error rest then some (rest, { s with done := true })
    else
      some (encU 0, { s with K := encU PROGN_REST :: cdrH s.heap rest :: K2,
                             curr_exp := carH s.heap rest })
  else if decU k == FUNCTION_APP then
    let (args, K2) := pop K1
    let s := { s with K := K2 }
    let fn := arg
    if typeOf args == PTR_TYPE_CONS then
      let (argsRev, h1) := reverseH ifuel s.heap args
      if typeOf argsRev == VAL_TYPE_SYMBOL then
        some (fn, { s with heap := h1, K := encU FUNCTION_APP :: args :: K2,
                           perform_gc := true, app_cont := true })
      else funAppAfterRev ifuel s h1 K2 fn args argsRev
    else funAppAfterRev ifuel s s.heap K2 fn args args
  else if decU k == ARG_LIST then
    let (rest, K2) := pop K1
    let (acc, K3) := pop K2
    let (env, K4) := pop K3
    let s := { s with K := K4 }
    let (acc2, h1) := consH s.heap arg acc
    if typeOf acc2 == VAL_TYPE_SYMBOL then
      some (arg, { s with heap := h1, K := encU ARG_LIST :: rest :: acc :: env :: K4,
                          perform_gc := true, app_cont := true })
    else if typeOf rest == VAL_TYPE_SYMBOL && rest == NILV then
      some (acc2, { s with heap := h1, app_cont := true })
    else
      some (encU 0, { s with heap := h1,
                             K := encU ARG_LIST :: cdrH h1 rest :: acc2 :: env :: K4,
                             curr_env := env, curr_exp := carH h1 rest })
  else if decU k == FUNCTION then
    let (fn, K2) := pop K1
    let K3 := encU FUNCTION_APP :: arg :: K2
    if is_fundamental fn then some (fn, { s with K := K3, app_cont := true })
    else some (encU 0, { s with K := K3, curr_exp := fn })
  else if decU k == BIND_TO_KEY_REST then
    let (key, K2) := pop K1
    let (env, K3) := pop K2
    let (rest, K4) := pop K3
    let h1 := env_modify_binding ifuel s.heap env key arg
    if typeOf rest == PTR_TYPE_CONS then
      let keyn := carH h1 (carH h1 rest)
      let valn := carH h1 (cdrH h1 (carH h1 rest))
      some (encU 0, { s with heap := h1,
                             K := encU BIND_TO_KEY_REST :: keyn :: env :: cdrH h1 rest :: K4,
                             curr_exp := valn, curr_env := env })
    else
      let (expv, K5) := pop K4
      some (encU 0, { s with heap := h1, K := K5, curr_exp := expv, curr_env := env })
  else if decU k == IF then
    let (thenB, K2) := pop K1
    let (elseB, K3) := pop K2
    if typeOf arg == VAL_TYPE_SYMBOL && decSym arg == sym_true then
      some (0, { s with K := K3, curr_exp := thenB })
    else some (0, { s with K := K3, curr_exp := elseB })
  else some (eerrV, { s with done := true })

/-- The letrec preallocation loop of the `let` special form.  The source's
`continue` on an allocation failure re-enters the loop without advancing
`curr`, so a failure spins forever; the model returns `none` when the fuel
runs out. -/
def letPrealloc : Nat → Heap → VALUE → VALUE → Option (Heap × VALUE)
  | 0, _, _, _ => none
  | fuel + 1, h, curr, newEnv =>
    if typeOf curr == PTR_TYPE_CONS then
      let key := carH h (carH h curr)
      let (binding, h1) := consH h key NILV
      let (newEnv2, h2) := consH h1 binding newEnv
      if typeOf binding == VAL_TYPE_SYMBOL || typeOf newEnv2 == VAL_TYPE_SYMBOL then
        letPrealloc fuel h2 curr newEnv2
      else letPrealloc fuel h2 (cdrH h2 curr) newEnv2
    else some (h, newEnv)

/-- The expression-dispatch half of `run_eval`'s loop body (the `switch` on
`type_of(ctx->curr_exp)`). -/
def dispatch (ifuel : Nat) (s : Machine) : Option Machine :=
  let e := s.curr_exp
  let h := s.heap
  let t := typeOf e
  if t == VAL_TYPE_SYMBOL then
    match env_lookup ifuel h e s.curr_env with
    | some v => some { s with app_cont := true, r := v }
    | none =>
      match env_lookup ifuel h e s.genv with
      | some v => some { s with app_cont := true, r := v }
      | none => some { s with r := eerrV, done := true }
  else if t == PTR_TYPE_BOXED_F || t == PTR_TYPE_BOXED_U || t == PTR_TYPE_BOXED_I ||
          t == VAL_TYPE_I || t == VAL_TYPE_U || t == VAL_TYPE_CHAR ||
          t == PTR_TYPE_ARRAY then
    some { s with app_cont := true, r := e }
  else if t == PTR_TYPE_REF || t == PTR_TYPE_STREAM then
    some { s with r := eerrV, done := true }
  else if t == PTR_TYPE_CONS then
    let head := carH h e
    if typeOf head == VAL_TYPE_SYMBOL && decSym head == sym_quote then
      some { s with r := carH h (cdrH h e), app_cont := true }
    else if typeOf head == VAL_TYPE_SYMBOL && decSym head == sym_define then
      let key := carH h (cdrH h e)
      let valExp := carH h (cdrH h (cdrH h e))
      if typeOf key != VAL_TYPE_SYMBOL || key == NILV then
        some { s with done := true, r := eerrV }
      else
        some { s with K := encU SET_GLOBAL_ENV :: key :: s.K, curr_exp := valExp }
    else if typeOf head == VAL_TYPE_SYMBOL && decSym head == sym_progn then
      let exps := cdrH h e
      if typeOf exps == VAL_TYPE_SYMBOL && exps == NILV then
        some { s with r := NILV, app_cont := true }
      else if symrepr_is_error exps then some { s with r := exps, done := true }
      else
        some { s with K := encU PROGN_REST :: cdrH h exps :: s.K,
                      curr_exp := carH h exps }
    else if typeOf head == VAL_TYPE_SYMBOL && decSym head == sym_lambda then
      match env_copy_shallow ifuel h s.curr_env with
      | (none, h1) => some { s with heap := h1, perform_gc := true, app_cont := false }
      | (some envCpy, h1) =>
        let (envEnd, h2) := consH h1 envCpy NILV
        let (body, h3) := consH h2 (carH h2 (cdrH h2 (cdrH h2 e))) envEnd
        let (params, h4) := consH h3 (carH h3 (cdrH h3 e)) body
        let (closure, h5) := consH h4 (encSym sym_closure) params
        if typeOf envEnd == VAL_TYPE_SYMBOL || typeOf body == VAL_TYPE_SYMBOL ||
           typeOf params == VAL_TYPE_SYMBOL || typeOf closure == VAL_TYPE_SYMBOL then
          some { s with heap := h5, perform_gc := true, app_cont := false }
        else some { s with heap := h5, app_cont := true, r := closure }
    else if typeOf head == VAL_TYPE_SYMBOL && decSym head == sym_if then
      some { s with K := encU IF :: carH h (cdrH h (cdrH h e)) ::
                         carH h (cdrH h (cdrH h (cdrH h e))) :: s.K,
                    curr_exp := carH h (cdrH h e) }
    else if typeOf head == VAL_TYPE_SYMBOL && decSym head == sym_let then
      let binds := carH h (cdrH h e)
      let exp2 := carH h (cdrH h (cdrH h e))
      if typeOf binds != PTR_TYPE_CONS then some { s with curr_exp := exp2 }
      else
        match letPrealloc ifuel h binds s.curr_env with
        | none => none
        | some (h1, newEnv) =>
          let key0 := carH h1 (carH h1 binds)
          let val0 := carH h1 (cdrH h1 (carH h1 binds))
          some { s with heap := h1,
                        K := encU BIND_TO_KEY_REST :: key0 :: newEnv ::
                             cdrH h1 binds :: exp2 :: s.K,
                        curr_exp := val0, curr_env := newEnv }
    else
      let K1 := encU FUNCTION :: head :: s.K
      if typeOf (cdrH h e) == VAL_TYPE_SYMBOL && cdrH h e == NILV then
        some { s with K := K1, app_cont := true, r := NILV }
      else
        some { s with K := encU ARG_LIST :: cdrH h (cdrH h e) :: NILV ::
                           s.curr_env :: K1,
                      curr_exp := carH h (cdrH h e) }
  else some { s with done := true, r := eerrV }

/-- One iteration of `run_eval`'s `while (!done)` loop: the GC/no-progress
check, then either continuation application or expression dispatch. -/
def run_eval_iter (ifuel : Nat) (s : Machine) (non_gc : Nat) :
    Option (Machine × Nat) :=
  if s.perform_gc && non_gc == 0 then
    some ({ s with done := true, r := merrV }, non_gc)
  else
    let (s1, n1) :=
      if s.perform_gc then
        let roots := [s.genv, s.curr_env, s.curr_exp, s.program, s.r] ++ s.K
        ({ s with heap := gcRun s.heap roots, perform_gc := false }, 0)
      else (s, non_gc + 1)
    if s1.app_cont then
      match apply_continuation ifuel s1 s1.r with
      | none => none
      | some (res, s2) => some ({ s2 with r := res }, n1)
    else
      match dispatch ifuel s1 with
      | none => none
      | some s2 => some (s2, n1)

/-- Iterate `run_eval`'s loop until `done` (or the step budget runs out). -/
def run_eval_steps : Nat → Nat → Machine → Nat → Option Machine
  | 0, _, s, _ => if s.done then some s else none
  | fuel + 1, ifuel, s, non_gc =>
    if s.done then some s
    else
      match run_eval_iter ifuel s non_gc with
      | none => none
      | some (s1, n1) => run_eval_steps fuel ifuel s1 n1

/-- `run_eval`: push the `DONE` frame, initialise the loop locals, run the
loop, and return the final `r`. -/
def run_eval (fuel ifuel : Nat) (s0 : Machine) : Option VALUE :=
  let s := { s0 with K := encU DONE :: s0.K, r := NILV,
                     done := false, perform_gc := false, app_cont := false }
  (run_eval_steps fuel ifuel s 0).map Machine.r

/-! ## Concrete inputs used by the claim theorems -/

/-- A user symbol id for the test programs (outside the reserved range). -/
def sym_x : Nat := 100

/-- All-sentinel constant memory, the state `init_repl` sets up with
`memset(constants_memory, 0xFF, ...)`. -/
def c1mem0 : Nat → Nat := fun _ => 0xffffffff

/-- Claim C2 input: a cons heap of seven cells with cells 5 and 6 free. -/
def c2_heap0 : Heap := { cells := List.replicate 7 (0, 0), free := [5, 6] }

/-- Claim C2 input: an empty twelve-word defrag pool. -/
def c2_pool0 : DefragMem := { size := 12, flags := 0, data := List.replicate 12 0 }

/-- First allocation: a 4-byte record at offset 0 (handle = heap cell 5). -/
def c2_allocA : VALUE × DefragMem × Heap := lbm_defrag_mem_alloc c2_pool0 c2_heap0 4

/-- Second allocation: a 16-byte record at offset 4 (handle = heap cell 6). -/
def c2_allocB : VALUE × DefragMem × Heap :=
  lbm_defrag_mem_alloc c2_allocA.2.1 c2_allocA.2.2 16

/-- Free the first record, as the collector does when its handle dies. -/
def c2_freed : DefragMem × Heap :=
  free_defrag_allocation c2_allocB.2.1 c2_allocB.2.2 0

/-- Compact the pool: the 16-byte record should move from offset 4 to 0. -/
def c2_defragged : DefragMem × Heap := lbm_defrag_mem_defrag c2_freed.1 c2_freed.2

/-- Claim C3 input: evaluate `(lambda (x) x)` on a heap whose four cells are
all occupied by that very expression and whose free list is empty, so the
four cons allocations that build the closure fail, the forced GC recovers
nothing (every cell is reachable from `curr_exp`), and the retry fails
again. -/
def mC3 : Machine :=
  { heap := { cells := [(encSym sym_lambda, encConsPtr 1),
                        (encConsPtr 2, encConsPtr 3),
                        (encSym sym_x, NILV),
                        (encSym sym_x, NILV)], free := [] }
    genv := NILV, K := [], curr_exp := encConsPtr 0, curr_env := NILV,
    program := NILV, r := NILV, done := false, perform_gc := false,
    app_cont := false }

/-- Claim C4 input: evaluate `((lambda (x) x))` — a closure of one parameter
applied to zero arguments — with four free cells for building the closure. -/
def mC4 : Machine :=
  { heap := { cells := [(encConsPtr 1, NILV),
                        (encSym sym_lambda, encConsPtr 2),
                        (encConsPtr 3, encConsPtr 4),
                        (encSym sym_x, NILV),
                        (encSym sym_x, NILV),
                        (0, 0), (0, 0), (0, 0), (0, 0)], free := [5, 6, 7, 8] }
    genv := NILV, K := [], curr_exp := encConsPtr 0, curr_env := NILV,
    program := NILV, r := NILV, done := false, perform_gc := false,
    app_cont := false }

/-- A small machine used to instantiate the general C3 theorem: an `ARG_LIST`
frame on the stack and an exhausted free list. -/
def mC3w : Machine :=
  { heap := { cells := [(encSym sym_x, NILV)], free := [] }
    genv := NILV, K := [encU ARG_LIST, NILV, NILV, NILV, encU DONE],
    curr_exp := NILV, curr_env := NILV, program := NILV, r := NILV,
    done := false, perform_gc := true, app_cont := true }

/-- A small machine used to instantiate the general C4 theorem: a
`FUNCTION_APP` frame whose function is the closure `(closure (x) x nil)`
stored in cells 0–4 and whose evaluated argument list is empty. -/
def mC4w : Machine :=
  { heap := { cells := [(encSym sym_closure, encConsPtr 1),
                        (encConsPtr 2, encConsPtr 3),
                        (encSym sym_x, NILV),
                        (encSym sym_x, encConsPtr 4),
                        (NILV, NILV)], free := [] }
    genv := NILV, K := [encU FUNCTION_APP, NILV, encU DONE],
    curr_exp := NILV, curr_env := NILV, program := NILV, r := encConsPtr 0,
    done := false, perform_gc := false, app_cont := true }

/-- The heap as it stands when the closure-application code of the
`FUNCTION_APP` continuation reads the closure: unchanged when the argument
list was empty, otherwise the heap left by `reverse`. -/
def heapAfterRev (ifuel : Nat) (h : Heap) (args : VALUE) : Heap :=
  if typeOf args == PTR_TYPE_CONS then (reverseH ifuel h args).snd else h

/-- `car(cdr(fun))` — the parameter list of a closure value. -/
def closureParams (h : Heap) (fn : VALUE) : VALUE := carH h (cdrH h fn)

/-- `car(cdr(cdr(cdr(fun))))` — the captured environment of a closure value. -/
def closureEnv (h : Heap) (fn : VALUE) : VALUE :=
  carH h (cdrH h (cdrH h (cdrH h fn)))

/-- A machine used to instantiate the reverse-failure conjunct of the C3
theorem: a `FUNCTION_APP` frame whose argument list `(1u)` lives in cell 0,
with an empty free list so the reversal allocation fails. -/
def mW_revfail : Machine :=
  { heap := { cells := [(encU 1, NILV)], free := [] }
    genv := NILV, K := [encU FUNCTION_APP, encConsPtr 0, encU DONE],
    curr_exp := NILV, curr_env := NILV, program := NILV, r := NILV,
    done := false, perform_gc := false, app_cont := true }

/-- A machine used to instantiate the environment-building-failure conjunct
of the C3 theorem: the closure `(closure (x) x nil)` in cells 0–4 applied to
the one-element argument list `(42u)` in cell 5, with exactly one free cell —
enough for the reversal, not enough for the parameter binding. -/
def mW_buildfail : Machine :=
  { heap := { cells := [(encSym sym_closure, encConsPtr 1),
                        (encConsPtr 2, encConsPtr 3),
                        (encSym sym_x, NILV),
                        (encSym sym_x, encConsPtr 4),
                        (NILV, NILV),
                        (encU 42, NILV),
                        (0, 0)], free := [6] }
    genv := NILV, K := [encU FUNCTION_APP, encConsPtr 5, encU DONE],
    curr_exp := NILV, curr_env := NILV, program := NILV, r := encConsPtr 0,
    done := false, perform_gc := false, app_cont := true }

/-- A machine used to instantiate the `SET_GLOBAL_ENV` conjunct of the C3
theorem: a `define` continuation for an unbound key with an empty free list. -/
def mW_setglobal : Machine :=
  { heap := { cells := [], free := [] }
    genv := NILV, K := [encU SET_GLOBAL_ENV, encSym sym_x, encU DONE],
    curr_exp := NILV, curr_env := NILV, program := NILV, r := NILV,
    done := false, perform_gc := false, app_cont := true }

/-- A machine used to instantiate the `let`-divergence conjunct of the C3
theorem: `curr_exp` is `(let ((x 1)) x)` in cells 0–5 and the free list is
empty, so the preallocation loop's failure path spins forever. -/
def mW_let : Machine :=
  { heap := { cells := [(encSym sym_let, encConsPtr 1),
                        (encConsPtr 2, encConsPtr 5),
                        (encConsPtr 3, NILV),
                        (encSym sym_x, encConsPtr 4),
                        (encU 1, NILV),
                        (encSym sym_x, NILV)], free := [] }
    genv := NILV, K := [], curr_exp := encConsPtr 0, curr_env := NILV,
    program := NILV, r := NILV, done := false, perform_gc := false,
    app_cont := false }

/-! # Theorems -/

/-! ## Encoding helper lemmas -/

@[simp] theorem typeOf_encSym (s : Nat) : typeOf (encSym s) = VAL_TYPE_SYMBOL := by
  simp [typeOf, encSym, VAL_TYPE_SYMBOL, Nat.mul_add_mod]

@[simp] theorem typeOf_encU (n : Nat) : typeOf (encU n) = VAL_TYPE_U := by
  simp [typeOf, encU, VAL_TYPE_U, Nat.mul_add_mod]

@[simp] theorem typeOf_encConsPtr (i : Nat) : typeOf (encConsPtr i) = PTR_TYPE_CONS := by
  simp [typeOf, encConsPtr, PTR_TYPE_CONS, Nat.mul_mod_right]

@[simp] theorem decU_encU (n : Nat) : decU (encU n) = n := by
  simp [decU, encU, VAL_TYPE_U, Nat.mul_add_div]

@[simp] theorem decSym_encSym (s : Nat) : decSym (encSym s) = s := by
  simp [decSym, encSym, VAL_TYPE_SYMBOL, Nat.mul_add_div]

@[simp] theorem decPtr_encConsPtr (i : Nat) : decPtr (encConsPtr i) = i := by
  simp [decPtr, encConsPtr, Nat.mul_div_cancel_left]

/-! ## Claim C1 -/

/-- Claim C1 as stated is false: after a successful write of the sentinel
value `0xffffffff` itself, the slot is indistinguishable from an unwritten
one, so a subsequent write of a different word (here `0`) also succeeds.
Starting from the all-sentinel memory `init_repl` sets up, the claimed
equivalence fails at index `0`, `v = 0xffffffff`, `v' = 0`. -/
theorem C1_counterexample :
    ¬ (∀ (mem : Nat → Nat) (ix v : Nat), ix < CONSTANT_MEMORY_SIZE →
        (const_heap_write mem ix v).fst = true →
        ∀ w, ((const_heap_write (const_heap_write mem ix v).snd ix w).fst = true ↔ w = v)) := by
  intro hcl
  have h := (hcl c1mem0 0 0xffffffff (by decide) (by decide) 0).mp (by decide)
  exact absurd h (by decide)

/-- Claim C1, amended: `const_heap_write` is write-once with idempotent
re-writes.  For every in-capacity index, writing any word to a slot holding
the sentinel `0xffffffff` succeeds; and once a value `v` other than the
sentinel itself has been written to slot `ix`, a subsequent
`const_heap_write ix w` succeeds if and only if `w = v`. -/
theorem C1_const_heap_write_once :
    (∀ (mem : Nat → Nat) (ix w : Nat), ix < CONSTANT_MEMORY_SIZE →
        mem ix = 0xffffffff → (const_heap_write mem ix w).fst = true) ∧
    (∀ (mem : Nat → Nat) (ix v : Nat), ix < CONSTANT_MEMORY_SIZE →
        v ≠ 0xffffffff → (const_heap_write mem ix v).fst = true →
        ∀ w, ((const_heap_write (const_heap_write mem ix v).snd ix w).fst = true ↔ w = v)) := by
  constructor
  · intro mem ix w hix hsent
    simp [const_heap_write, Nat.not_le.mpr hix, hsent]
  · intro mem ix v hix hv hsucc w
    have hnle : ¬ CONSTANT_MEMORY_SIZE ≤ ix := Nat.not_le.mpr hix
    by_cases hsent : mem ix = 0xffffffff
    · simp only [const_heap_write, if_neg hnle, if_pos hsent, if_true]
      rw [if_neg hv]
      by_cases hvw : v = w
      · subst hvw; simp
      · rw [if_neg hvw]
        constructor
        · intro hfalse; exact absurd hfalse Bool.false_ne_true
        · intro hwv; exact absurd hwv.symm hvw
    · by_cases hval : mem ix = v
      · simp only [const_heap_write, if_neg hnle, if_neg hsent, if_pos hval]
        by_cases hw2 : mem ix = w
        · rw [if_pos hw2]
          have hwv : w = v := by rw [← hw2]; exact hval
          simp [hwv]
        · rw [if_neg hw2]
          constructor
          · intro hfalse; exact absurd hfalse Bool.false_ne_true
          · intro hwv; exact absurd (hval.trans hwv.symm) hw2
      · exfalso
        have hf : (const_heap_write mem ix v).fst = false := by
          simp [const_heap_write, hnle, hsent, hval]
        rw [hsucc] at hf; exact absurd hf (by decide)

/-- Witness for `C1_const_heap_write_once` on the all-sentinel memory at
index 0 with `v = 5`. -/
theorem C1_witness :
    (const_heap_write c1mem0 0 5).fst = true ∧
    ((const_heap_write (const_heap_write c1mem0 0 5).snd 0 7).fst = true ↔ 7 = 5) ∧
    ((const_heap_write (const_heap_write c1mem0 0 5).snd 0 5).fst = true ↔ 5 = 5) := by
  refine ⟨?_, ?_, ?_⟩
  · exact C1_const_heap_write_once.1 c1mem0 0 5 (by decide) (by decide)
  · exact C1_const_heap_write_once.2 c1mem0 0 5 (by decide) (by decide)
      (C1_const_heap_write_once.1 c1mem0 0 5 (by decide) (by decide)) 7
  · exact C1_const_heap_write_once.2 c1mem0 0 5 (by decide) (by decide)
      (C1_const_heap_write_once.1 c1mem0 0 5 (by decide) (by decide)) 5

/-! ## Claim C2 -/

/-- Claim C2: the back-pointer invariant holds immediately after the two
`lbm_defrag_mem_alloc` calls and after freeing the first record, but
`lbm_defrag_mem_defrag` destroys it.  Relocating the live 16-byte record
from offset 4 to offset 0 (move distance 4 words, record footprint 7 words),
the `memset` at `clear_ix = i - move_dist` wipes the start of the freshly
moved record, after which the back-pointer word read from the target is
already zero, so `lbm_set_car` is applied to word 0 instead of the handle
cell; the pool ends up entirely zeroed while handle cell 6 still claims a
record at offset 4. -/
theorem C2_defrag_breaks_backptr :
    typeOf c2_allocB.1 = PTR_TYPE_ARRAY ∧
    defrag_backptr_inv c2_freed.2 c2_freed.1 = true ∧
    defrag_backptr_inv c2_defragged.2 c2_defragged.1 = false ∧
    c2_defragged.1.data = List.replicate 12 0 ∧
    c2_defragged.2.cells.getD 6 (0, 0) = (4, encSym sym_defrag_array_type) := by
  decide

/-! ## Claim C3 -/

/-- Claim C3 as stated is false on the termination symbol: evaluating
`(lambda (x) x)` on a full heap makes the closure allocation fail, forces a
GC that recovers nothing (the whole heap is reachable from `curr_exp`), and
fails again; the context then terminates with the out-of-memory symbol
`merror`, not with a distinct `ERR_GC_PROGRESS` symbol (no such symbol
exists in the code). -/
theorem C3_counterexample :
    run_eval 10 32 mC3 = some (encSym sym_merror) ∧
    encSym sym_merror ≠ encSym sym_gc_progress := by
  decide

/-- With an empty free list, `reverse` of a cons-typed list fails at once:
the result is symbol-typed and the heap is unchanged. -/
theorem reverseH_free_nil (f : Nat) (h : Heap) (v : VALUE)
    (hfree : h.free = []) (hv : typeOf v = PTR_TYPE_CONS) :
    typeOf (reverseH f h v).fst = VAL_TYPE_SYMBOL ∧ (reverseH f h v).snd = h := by
  cases f with
  | zero => exact ⟨by simp [reverseH, reverseLoop, NILV], rfl⟩
  | succ n =>
    constructor <;>
      simp [reverseH, reverseLoop, hv, consH, lbm_heap_allocate_cell, hfree, merrV]

/-- With an empty free list, `env_copy_shallow` either fails or returns its
argument; either way the heap is unchanged. -/
theorem env_copy_shallow_free_nil (f : Nat) (h : Heap) (env : VALUE)
    (hfree : h.free = []) :
    env_copy_shallow f h env = (none, h) ∨ env_copy_shallow f h env = (some env, h) := by
  induction f generalizing env with
  | zero => exact Or.inl rfl
  | succ n ih =>
    by_cases hc : typeOf env = PTR_TYPE_CONS
    · rcases ih (cdrH h env) with hrec | hrec
      · exact Or.inl (by simp [env_copy_shallow, hc, hrec])
      · exact Or.inl
          (by simp [env_copy_shallow, hc, hrec, consH, lbm_heap_allocate_cell, hfree, merrV])
    · have hc2 : (typeOf env == PTR_TYPE_CONS) = false := by simp [hc]
      exact Or.inr (by simp [env_copy_shallow, hc2])

/-- With an empty free list, the `let` preallocation loop never terminates:
the source's `continue` on the failure path re-enters the `while` without
advancing `curr`, so the model returns `none` for every fuel. -/
theorem letPrealloc_free_nil (f : Nat) (h : Heap) (curr newEnv : VALUE)
    (hfree : h.free = []) (hc : typeOf curr = PTR_TYPE_CONS) :
    letPrealloc f h curr newEnv = none := by
  induction f generalizing newEnv with
  | zero => rfl
  | succ n ih =>
    simp only [letPrealloc, hc, beq_self_eq_true, if_true, consH,
      lbm_heap_allocate_cell, hfree]
    simp [merrV, ih]

/-- Claim C3, amended; one conjunct per behaviour.
(1) Entering a loop iteration with a pending GC request when no step has
completed since the last collection (`non_gc = 0`) terminates the context
with the out-of-memory symbol `merror` as its result — there is no dedicated
GC-progress symbol.  On every modelled allocation-failure path the evaluator
requests a GC and arranges for the very same step to re-execute:
(2) the `ARG_LIST` cons failure pushes the popped operands back, restoring
the stack exactly;
(3) the `FUNCTION_APP` argument-reversal failure re-pushes the frame,
restoring the stack exactly;
(4) the `FUNCTION_APP` closure-environment-building failure re-pushes the
frame, restoring the stack exactly (cells consumed by the reversal stay
allocated for the collector to reclaim);
(5) the `SET_GLOBAL_ENV` cons failure for an unbound key re-pushes the
frame, restoring the stack exactly;
(6) the closure-construction failure at lambda dispatch touches neither the
stack nor the current expression.
(7) Exception, forced by the code: an allocation failure inside the `let`
preallocation loop never restores or retries — the loop re-enters without
advancing and spins forever (the fundamental-operation retry path exercises
only the out-of-scope built-in registry and is not modelled). -/
theorem C3_oom_recovery :
    (∀ (fuel ifuel : Nat) (s : Machine), s.done = false → s.perform_gc = true →
      run_eval_steps (fuel + 1) ifuel s 0 = some { s with done := true, r := merrV }) ∧
    (∀ (ifuel : Nat) (s : Machine) (arg rest acc env : VALUE) (Kt : List VALUE),
      s.K = encU ARG_LIST :: rest :: acc :: env :: Kt → s.heap.free = [] →
      apply_continuation ifuel s arg =
        some (arg, { s with app_cont := true, perform_gc := true })) ∧
    (∀ (ifuel : Nat) (s : Machine) (fn args : VALUE) (Kt : List VALUE),
      s.K = encU FUNCTION_APP :: args :: Kt →
      typeOf args = PTR_TYPE_CONS → s.heap.free = [] →
      apply_continuation ifuel s fn =
        some (fn, { s with app_cont := true, perform_gc := true })) ∧
    (∀ (ifuel : Nat) (s : Machine) (fn args : VALUE) (Kt : List VALUE),
      s.K = encU FUNCTION_APP :: args :: Kt →
      typeOf fn = PTR_TYPE_CONS →
      typeOf args = PTR_TYPE_CONS →
      typeOf (reverseH ifuel s.heap args).fst ≠ VAL_TYPE_SYMBOL →
      listLength ifuel (reverseH ifuel s.heap args).snd
          (closureParams (reverseH ifuel s.heap args).snd fn) =
        listLength ifuel (reverseH ifuel s.heap args).snd args →
      (env_build_params_args ifuel (reverseH ifuel s.heap args).snd
          (closureParams (reverseH ifuel s.heap args).snd fn)
          (reverseH ifuel s.heap args).fst
          (closureEnv (reverseH ifuel s.heap args).snd fn)).fst = none →
      apply_continuation ifuel s fn =
        some (fn, { s with
          heap := (env_build_params_args ifuel (reverseH ifuel s.heap args).snd
            (closureParams (reverseH ifuel s.heap args).snd fn)
            (reverseH ifuel s.heap args).fst
            (closureEnv (reverseH ifuel s.heap args).snd fn)).snd,
          app_cont := true, perform_gc := true })) ∧
    (∀ (ifuel : Nat) (s : Machine) (val key : VALUE) (Kt : List VALUE),
      s.K = encU SET_GLOBAL_ENV :: key :: Kt →
      s.heap.free = [] →
      setGlobalFind ifuel s.heap s.genv key = none →
      apply_continuation ifuel s val =
        some (val, { s with app_cont := true, perform_gc := true })) ∧
    (∀ (ifuel : Nat) (s : Machine),
      typeOf s.curr_exp = PTR_TYPE_CONS →
      typeOf (carH s.heap s.curr_exp) = VAL_TYPE_SYMBOL →
      decSym (carH s.heap s.curr_exp) = sym_lambda →
      s.heap.free = [] →
      dispatch ifuel s = some { s with perform_gc := true, app_cont := false }) ∧
    (∀ (ifuel : Nat) (s : Machine),
      typeOf s.curr_exp = PTR_TYPE_CONS →
      typeOf (carH s.heap s.curr_exp) = VAL_TYPE_SYMBOL →
      decSym (carH s.heap s.curr_exp) = sym_let →
      typeOf (carH s.heap (cdrH s.heap s.curr_exp)) = PTR_TYPE_CONS →
      s.heap.free = [] →
      dispatch ifuel s = none) := by
  refine ⟨?_, ?_, ?_, ?_, ?_, ?_, ?_⟩
  · intro fuel ifuel s hdone hgc
    simp only [run_eval_steps, hdone, Bool.false_eq_true, if_false, run_eval_iter, hgc,
      Bool.true_and, beq_self_eq_true, if_true]
    cases fuel <;> simp [run_eval_steps]
  · intro ifuel s arg rest acc env Kt hK hfree
    obtain ⟨⟨cells, free⟩, genv, K, ce, cv, pr, r, dn, pg, ac⟩ := s
    simp only at hK hfree
    subst hK hfree
    simp [apply_continuation, pop, consH, lbm_heap_allocate_cell,
      DONE, EVAL, SET_GLOBAL_ENV, PROGN_REST, FUNCTION_APP, ARG_LIST, FUNCTION,
      BIND_TO_KEY_REST, IF, merrV]
  · intro ifuel s fn args Kt hK hargs hfree
    obtain ⟨⟨cells, free⟩, genv, K, ce, cv, pr, r, dn, pg, ac⟩ := s
    simp only at hK hfree
    subst hK hfree
    obtain ⟨hrt, hrh⟩ :=
      reverseH_free_nil ifuel { cells := cells, free := [] } args rfl hargs
    simp [apply_continuation, pop,
      DONE, EVAL, SET_GLOBAL_ENV, PROGN_REST, FUNCTION_APP, ARG_LIST, FUNCTION,
      BIND_TO_KEY_REST, IF, hargs, hrt, hrh]
  · intro ifuel s fn args Kt hK hfn hargs hrev hlen hbuilt
    obtain ⟨h, genv, K, ce, cv, pr, r, dn, pg, ac⟩ := s
    simp only at hK hrev hlen hbuilt
    subst hK
    have hrev2 : (typeOf (reverseH ifuel h args).fst == VAL_TYPE_SYMBOL) = false := by
      simp [hrev]
    simp only [closureParams, closureEnv] at hlen hbuilt
    rcases hrv : reverseH ifuel h args with ⟨argsRev, h1⟩
    simp only [hrv] at hrev2 hlen hbuilt
    rcases hb : env_build_params_args ifuel h1 (carH h1 (cdrH h1 fn)) argsRev
        (carH h1 (cdrH h1 (cdrH h1 (cdrH h1 fn)))) with ⟨ob, h2⟩
    rw [hb] at hbuilt
    simp only at hbuilt
    subst hbuilt
    simp [apply_continuation, pop, funAppAfterRev, closureParams, closureEnv,
      DONE, EVAL, SET_GLOBAL_ENV, PROGN_REST, FUNCTION_APP, ARG_LIST, FUNCTION,
      BIND_TO_KEY_REST, IF, hargs, hrv, hrev2, hfn, hlen, hb]
  · intro ifuel s val key Kt hK hfree hfind
    obtain ⟨⟨cells, free⟩, genv, K, ce, cv, pr, r, dn, pg, ac⟩ := s
    simp only at hK hfree hfind
    subst hK hfree
    simp [apply_continuation, pop, cont_set_global_env, hfind, consH,
      lbm_heap_allocate_cell, merrV,
      DONE, EVAL, SET_GLOBAL_ENV, PROGN_REST, FUNCTION_APP, ARG_LIST, FUNCTION,
      BIND_TO_KEY_REST, IF]
  · intro ifuel s hce hheadT hheadS hfree
    obtain ⟨⟨cells, free⟩, genv, K, ce, cv, pr, r, dn, pg, ac⟩ := s
    simp only at hce hheadT hheadS hfree
    subst hfree
    rcases env_copy_shallow_free_nil ifuel { cells := cells, free := [] } cv rfl
        with hcopy | hcopy <;>
      simp [dispatch, hce, hheadT, hheadS, hcopy, consH, lbm_heap_allocate_cell, merrV,
        sym_quote, sym_define, sym_progn, sym_lambda, sym_if, sym_let,
        PTR_TYPE_CONS, VAL_TYPE_SYMBOL, PTR_TYPE_BOXED_F, PTR_TYPE_BOXED_U,
        PTR_TYPE_BOXED_I, VAL_TYPE_I, VAL_TYPE_U, VAL_TYPE_CHAR, PTR_TYPE_ARRAY,
        PTR_TYPE_REF, PTR_TYPE_STREAM]
  · intro ifuel s hce hheadT hheadS hbinds hfree
    obtain ⟨⟨cells, free⟩, genv, K, ce, cv, pr, r, dn, pg, ac⟩ := s
    simp only at hce hheadT hheadS hbinds hfree
    subst hfree
    have hlet := letPrealloc_free_nil ifuel { cells := cells, free := [] }
      (carH { cells := cells, free := [] } (cdrH { cells := cells, free := [] } ce))
      cv rfl hbinds
    simp [dispatch, hce, hheadT, hheadS, hbinds, hlet,
      sym_quote, sym_define, sym_progn, sym_lambda, sym_if, sym_let,
      PTR_TYPE_CONS, VAL_TYPE_SYMBOL, PTR_TYPE_BOXED_F, PTR_TYPE_BOXED_U,
      PTR_TYPE_BOXED_I, VAL_TYPE_I, VAL_TYPE_U, VAL_TYPE_CHAR, PTR_TYPE_ARRAY,
      PTR_TYPE_REF, PTR_TYPE_STREAM]

/-- Witness for `C3_oom_recovery`: each conjunct applied to a concrete
machine (`mC3w` for the loop protocol and the `ARG_LIST` path, `mW_revfail`,
`mW_buildfail`, `mW_setglobal`, `mC3`'s lambda dispatch, and `mW_let`). -/
theorem C3_witness :
    run_eval_steps 1 0 mC3w 0 = some { mC3w with done := true, r := merrV } ∧
    apply_continuation 4 mC3w NILV =
      some (NILV, { mC3w with app_cont := true, perform_gc := true }) ∧
    apply_continuation 4 mW_revfail NILV =
      some (NILV, { mW_revfail with app_cont := true, perform_gc := true }) ∧
    apply_continuation 8 mW_buildfail (encConsPtr 0) =
      some (encConsPtr 0,
        { mW_buildfail with
          heap := { cells := [(encSym sym_closure, encConsPtr 1),
                              (encConsPtr 2, encConsPtr 3),
                              (encSym sym_x, NILV),
                              (encSym sym_x, encConsPtr 4),
                              (NILV, NILV),
                              (encU 42, NILV),
                              (encU 42, NILV)], free := [] },
          app_cont := true, perform_gc := true }) ∧
    apply_continuation 4 mW_setglobal (encU 7) =
      some (encU 7, { mW_setglobal with app_cont := true, perform_gc := true }) ∧
    dispatch 8 mC3 = some { mC3 with perform_gc := true, app_cont := false } ∧
    dispatch 8 mW_let = none := by
  refine ⟨?_, ?_, ?_, ?_, ?_, ?_, ?_⟩
  · exact C3_oom_recovery.1 0 0 mC3w rfl rfl
  · exact C3_oom_recovery.2.1 4 mC3w NILV NILV NILV NILV [encU DONE] rfl rfl
  · exact C3_oom_recovery.2.2.1 4 mW_revfail NILV (encConsPtr 0) [encU DONE]
      rfl (by decide) rfl
  · exact C3_oom_recovery.2.2.2.1 8 mW_buildfail (encConsPtr 0) (encConsPtr 5)
      [encU DONE] rfl (by decide) (by decide) (by decide) (by decide) (by decide)
  · exact C3_oom_recovery.2.2.2.2.1 4 mW_setglobal (encU 7) (encSym sym_x)
      [encU DONE] rfl rfl (by decide)
  · exact C3_oom_recovery.2.2.2.2.2.1 8 mC3 (by decide) (by decide) (by decide) rfl
  · exact C3_oom_recovery.2.2.2.2.2.2 8 mW_let (by decide) (by decide) (by decide)
      (by decide) rfl

/-! ## Claim C4 -/

/-- Claim C4 as stated is false on the error symbol: applying the
one-parameter closure `(lambda (x) x)` to zero arguments terminates the
context with the eval-error symbol `eerror`, not with a distinct `ERR_ARITY`
symbol (no such symbol exists in the code). -/
theorem C4_counterexample :
    run_eval 10 32 mC4 = some (encSym sym_eerror) ∧
    encSym sym_eerror ≠ encSym sym_arity := by
  decide

/-- Claim C4, amended: for every application of a closure through the
`FUNCTION_APP` continuation, the length of the closure's parameter list is
compared with the length of the evaluated argument list, and a mismatch
makes the context terminate with the eval-error symbol `eerror` as its
result. -/
theorem C4_closure_arity :
    ∀ (ifuel : Nat) (s : Machine) (fn args : VALUE) (Kt : List VALUE),
      s.K = encU FUNCTION_APP :: args :: Kt →
      typeOf fn = PTR_TYPE_CONS →
      (typeOf args = PTR_TYPE_CONS →
        typeOf (reverseH ifuel s.heap args).fst ≠ VAL_TYPE_SYMBOL) →
      listLength ifuel (heapAfterRev ifuel s.heap args)
          (carH (heapAfterRev ifuel s.heap args)
            (cdrH (heapAfterRev ifuel s.heap args) fn)) ≠
        listLength ifuel (heapAfterRev ifuel s.heap args) args →
      apply_continuation ifuel s fn =
        some (eerrV, { s with app_cont := false,
                              heap := heapAfterRev ifuel s.heap args,
                              K := Kt, done := true }) := by
  intro ifuel s fn args Kt hK hfn hrev hlen
  obtain ⟨h, genv, K, ce, cv, pr, r, dn, pg, ac⟩ := s
  simp only at hK
  subst hK
  by_cases hargs : typeOf args = PTR_TYPE_CONS
  · have hrev2 : (typeOf (reverseH ifuel h args).fst == VAL_TYPE_SYMBOL) = false := by
      simp [hrev hargs]
    simp only [heapAfterRev, hargs, beq_self_eq_true, if_true] at hlen
    simp [apply_continuation, pop, funAppAfterRev,
      DONE, EVAL, SET_GLOBAL_ENV, PROGN_REST, FUNCTION_APP, ARG_LIST, FUNCTION,
      BIND_TO_KEY_REST, IF, hargs, hrev2, hfn, hlen, heapAfterRev]
  · have hargs2 : (typeOf args == PTR_TYPE_CONS) = false := by simp [hargs]
    simp only [heapAfterRev, hargs2, Bool.false_eq_true, if_false] at hlen
    simp [apply_continuation, pop, funAppAfterRev,
      DONE, EVAL, SET_GLOBAL_ENV, PROGN_REST, FUNCTION_APP, ARG_LIST, FUNCTION,
      BIND_TO_KEY_REST, IF, hargs2, hfn, hlen, heapAfterRev]

/-- Witness for `C4_closure_arity` on the concrete machine `mC4w`: the
closure `(closure (x) x nil)` applied to zero evaluated arguments. -/
theorem C4_witness :
    apply_continuation 8 mC4w (encConsPtr 0) =
      some (eerrV, { mC4w with app_cont := false,
                               heap := heapAfterRev 8 mC4w.heap NILV,
                               K := [encU DONE], done := true }) :=
  C4_closure_arity 8 mC4w (encConsPtr 0) NILV [encU DONE] rfl (by decide)
    (by decide) (by decide)

end LispBM
